import Mathlib

/-!
Verification of the Context Retrieval & Ranking Engine of
`src/pipelines/mimir_rag_auto.py` (`_get_relevant_context`, lines 646-1022,
and `_get_embedding`, lines 1024-1040).

The embedding is shallow: the Cypher query's arithmetic (cosine similarity,
hybrid keyword boost, project-name derivation) is modelled as pure functions
over `ℚ` and `String`; the Python control flow (adaptive threshold retry
loop, per-source aggregation, graph expansion, final scoring, formatting)
is modelled as pure functions; the Neo4j store, the graph-traversal query
and the embedding client are parameters (a store call either returns rows
or raises, modelled with `Except`).
-/

/- ---------------------------------------------------------------------
   Cypher-side arithmetic (the similarity/boost computations executed by
   the store query, lines 692-777 of the source).
   --------------------------------------------------------------------- -/

/-- Model of a Cypher (IEEE-754) float result: a finite value, NaN, or an
infinity.  Cypher float division by zero does not raise; it yields an
infinity, or NaN for `0.0 / 0.0`. -/
inductive CFloat
  | num (x : ℚ)
  | nan
  | posInf
  | negInf
  deriving DecidableEq

/-- IEEE-754 division on finite operands, as Cypher performs it
(`dotProduct / (normA * normB)`, source line 704).  The non-finite operand
cases are unused by the model. -/
def cdiv : CFloat → CFloat → CFloat
  | CFloat.num x, CFloat.num y =>
    if y = 0 then (if x = 0 then CFloat.nan else if 0 < x then CFloat.posInf else CFloat.negInf)
    else CFloat.num (x / y)
  | _, _ => CFloat.nan

/-- `reduce(dot = 0.0, i IN range(0, size(a)-1) | dot + a[i] * b[i])`
(source lines 698-699); Cypher `range` is inclusive, so the indices are
`0 .. size(a)-1`, i.e. `List.range a.length`. -/
def dotProduct (a b : List ℚ) : ℚ :=
  (List.range a.length).foldl (fun dot i => dot + a.getD i 0 * b.getD i 0) 0

/-- `reduce(sum = 0.0, x IN a | sum + x * x)` — the radicand of `normA`
(source line 700). -/
def sumSquares (a : List ℚ) : ℚ :=
  a.foldl (fun sum x => sum + x * x) 0

/-- The cosine-similarity expression of the store query (source line 704):
`dotProduct / (normA * normB)` with `normA = sqrt(sumSquares stored)` and
`normB = sqrt(sumSquares query)`.  The square root of a rational is
irrational in general, so the float square-root routine is a parameter
`sqrtFn`; IEEE-754 square root is exact on `0` and `1`. -/
def cosineSimilarity (sqrtFn : ℚ → ℚ) (stored query : List ℚ) : CFloat :=
  cdiv (CFloat.num (dotProduct stored query))
       (CFloat.num (sqrtFn (sumSquares stored) * sqrtFn (sumSquares query)))

/-- Python `str.lower()` / Cypher `toLower`, character by character. -/
def pyLower (s : String) : String :=
  String.mk (s.data.map Char.toLower)

/-- Worker for `pySplit`: `acc` holds the current token reversed. -/
def pySplitAux : List Char → List Char → List String
  | [], acc => if acc.isEmpty then [] else [String.mk acc.reverse]
  | c :: cs, acc =>
    if c.isWhitespace then
      (if acc.isEmpty then pySplitAux cs [] else String.mk acc.reverse :: pySplitAux cs [])
    else pySplitAux cs (c :: acc)

/-- Python `str.split()` with no argument: split on whitespace runs,
discarding empty tokens. -/
def pySplit (s : String) : List String :=
  pySplitAux s.data []

/-- Drop leading whitespace characters. -/
def dropWs : List Char → List Char
  | [] => []
  | c :: cs => if c.isWhitespace then dropWs cs else c :: cs

/-- Python `str.strip()`: drop whitespace from both ends. -/
def pyStrip (s : String) : String :=
  String.mk ((dropWs ((dropWs s.data).reverse)).reverse)

/-- Keyword extraction (source lines 688-689):
`[w.strip() for w in query.lower().split() if len(w.strip()) > 3]`. -/
def extract_keywords (query : String) : List String :=
  (((pySplit (pyLower query)).map pyStrip).filter (fun w => w.length > 3))

/-- Whether `pat` occurs at the head of `l`. -/
def leadsList : List Char → List Char → Bool
  | [], _ => true
  | _ :: _, [] => false
  | p :: ps, c :: cs => p == c && leadsList ps cs

/-- Whether `pat` occurs contiguously anywhere in `l`. -/
def hasSubList (pat : List Char) : List Char → Bool
  | [] => pat.isEmpty
  | c :: cs => leadsList pat (c :: cs) || hasSubList pat cs

/-- Cypher `CONTAINS`: substring containment. -/
def containsStr (s kw : String) : Bool :=
  hasSubList kw.data s.data

/-- The Cypher `reduce` that counts keyword matches (source lines 758-761):
for each keyword, 1 if it occurs in the lowercased content plus 1 if it
occurs in the lowercased source path. -/
def matchCount (keywords : List String) (content source_path : String) : ℕ :=
  keywords.foldl (fun acc kw =>
    acc + (if containsStr (pyLower content) kw then 1 else 0)
        + (if containsStr (pyLower source_path) kw then 1 else 0)) 0

/-- `keyword_boost` (source lines 755-764): `matchCount * 0.02` when hybrid
search is enabled and the keyword list is non-empty, else `0.0`. -/
def keyword_boost (enableHybrid : Bool) (keywords : List String) (content source_path : String) : ℚ :=
  if enableHybrid = true ∧ keywords.length > 0 then
    (matchCount keywords content source_path : ℚ) * 0.02
  else 0

/-- `(similarity + keyword_boost) AS boosted_similarity` (source line 766). -/
def hybridBoosted (enableHybrid : Bool) (keywords : List String) (similarity : ℚ)
    (content source_path : String) : ℚ :=
  similarity + keyword_boost enableHybrid keywords content source_path

/-- Worker for `splitOnChar`: `acc` holds the current piece reversed. -/
def splitOnCharAux (sep : Char) : List Char → List Char → List String
  | [], acc => [String.mk acc.reverse]
  | c :: cs, acc =>
    if c = sep then String.mk acc.reverse :: splitOnCharAux sep cs []
    else splitOnCharAux sep cs (c :: acc)

/-- Cypher `split(s, sep)` for a one-character separator: split at every
occurrence, keeping empty pieces. -/
def splitOnChar (sep : Char) (s : String) : List String :=
  splitOnCharAux sep s.data []

/-- Project-name derivation (source lines 702, 707-710):
`split(path, '/')`, take index 2 when there are more than 2 parts, else
`'unknown'`. -/
def projectFromPath (path : String) : String :=
  let pathParts := splitOnChar ('/') path
  if pathParts.length > 2 then pathParts.getD 2 ("unknown") else ("unknown")

/- ---------------------------------------------------------------------
   Data model: rows returned by the store query, chunks, aggregates.
   --------------------------------------------------------------------- -/

/-- One row of the store query's `RETURN` (source lines 774-776).  A null
`content` is modelled as the empty string (Python treats both as falsy at
the only use site, line 837). -/
structure Record where
  content : String
  start_offset : ℤ
  file_path : String
  file_name : String
  similarity : ℚ
  boosted_similarity : ℚ
  source_type : String
  project_name : String
  deriving DecidableEq

/-- A row produced by the memory branch of the `UNION` (source lines
745-747): `source_path` and `source_name` are the memory title, and the
project name is the constant `'memory'`. -/
def memoryRecord (title content : String) (similarity boosted : ℚ) : Record :=
  { content := content, start_offset := 0, file_path := title, file_name := title,
    similarity := similarity, boosted_similarity := boosted,
    source_type := ("memory"), project_name := ("memory") }

/-- One entry of an aggregate's `chunks` list (source lines 857-862). -/
structure Chunk where
  content : String
  start_offset : ℤ
  similarity : ℚ
  boosted_similarity : ℚ
  deriving DecidableEq

/-- A Source Aggregate (source lines 844-851, 948-962).  `graph_related`
and `hops` are only meaningful for graph-expansion aggregates, and
`final_score` is only meaningful after the scoring pass (source line 970);
before that they hold the placeholders `false`, `0`, `0`. -/
structure Aggregate where
  chunks : List Chunk
  max_similarity : ℚ
  max_boosted_similarity : ℚ
  chunk_count : ℕ
  source_type : String
  project_name : String
  graph_related : Bool
  hops : ℕ
  final_score : ℚ
  deriving DecidableEq

/-- One row of the graph-traversal query's `RETURN` (source line 918). -/
structure GraphRecord where
  file_path : String
  file_name : String
  contents : List String
  hops : ℕ
  project_name : String
  deriving DecidableEq

/-- The configuration surface consumed by the core (source lines 56-96).
`GRAPH_TRAVERSAL_DEPTH` is only forwarded to the external traversal query
(source line 926), so it does not appear elsewhere in the model. -/
structure Valves where
  SEMANTIC_SEARCH_LIMIT : ℕ
  MIN_SIMILARITY_THRESHOLD : ℚ
  ENABLE_ADAPTIVE_THRESHOLD : Bool
  ENABLE_GRAPH_TRAVERSAL : Bool
  GRAPH_TRAVERSAL_DEPTH : ℕ
  ENABLE_HYBRID_SEARCH : Bool

/-- The observable outcome of one retrieval: the store queries issued by
the retry loop (threshold and `initialLimit` of each), the final Source
Aggregates (the code's `file_aggregates` after scoring), the ranked,
truncated selection (`sorted_files`), and the Context Bundle text. -/
structure RetrievalResult where
  queries : List (ℚ × ℕ)
  aggregates : List (String × Aggregate)
  selected : List (String × Aggregate)
  bundle : String

/- ---------------------------------------------------------------------
   Stable descending sort: Python `sorted(..., key=k, reverse=True)` and
   `list.sort(key=k, reverse=True)` are stable; this insertion sort walks
   past an element only while its key is strictly larger, which preserves
   the original order of equal keys.
   --------------------------------------------------------------------- -/

def insertDesc {α : Type} (key : α → ℚ) (x : α) : List α → List α
  | [] => [x]
  | y :: ys => if key x < key y then y :: insertDesc key x ys else x :: y :: ys

def sortDesc {α : Type} (key : α → ℚ) : List α → List α
  | [] => []
  | x :: xs => insertDesc key x (sortDesc key xs)

/- ---------------------------------------------------------------------
   Aggregation (source lines 811-862).
   --------------------------------------------------------------------- -/

/-- The chunk dict appended at source lines 857-862. -/
def mkChunk (r : Record) : Chunk :=
  { content := r.content, start_offset := r.start_offset,
    similarity := r.similarity, boosted_similarity := r.boosted_similarity }

/-- The fresh aggregate dict created at source lines 844-851. -/
def freshAgg (r : Record) : Aggregate :=
  { chunks := [], max_similarity := r.similarity,
    max_boosted_similarity := r.boosted_similarity, chunk_count := 0,
    source_type := r.source_type, project_name := r.project_name,
    graph_related := false, hops := 0, final_score := 0 }

/-- The unconditional mutation of the keyed aggregate (source lines
853-862): bump the count, update the running maxima, append the chunk. -/
def mergeInto (agg : Aggregate) (r : Record) : Aggregate :=
  { agg with chunk_count := agg.chunk_count + 1,
             max_similarity := max agg.max_similarity r.similarity,
             max_boosted_similarity := max agg.max_boosted_similarity r.boosted_similarity,
             chunks := agg.chunks ++ [mkChunk r] }

/-- `record.get("file_path") or record.get("file_name", "Unknown")`
(source line 824).  The query always binds both columns, so the `.get`
default is unreachable and the expression is "first truthy of the two". -/
def filePathOf (r : Record) : String :=
  if r.file_path ≠ "" then r.file_path else r.file_name

/-- Source lines 843-862: create the keyed aggregate if absent, then merge
the record into it.  The association list preserves Python dict insertion
order. -/
def mergeRecord (aggs : List (String × Aggregate)) (r : Record) : List (String × Aggregate) :=
  let fp := filePathOf r
  let base := if (aggs.lookup fp).isNone then aggs ++ [(fp, freshAgg r)] else aggs
  base.map (fun p => if p.1 = fp then (p.1, mergeInto p.2 r) else p)

/-- One iteration of the aggregation loop (source lines 823-862): track
the project (lines 832-834, before the content check), then skip
empty-content records (lines 837-839), else aggregate. -/
def recordStep (st : List (String × Aggregate) × Finset String) (r : Record) :
    List (String × Aggregate) × Finset String :=
  let project_matches := if r.project_name ≠ "unknown" then insert r.project_name st.2 else st.2
  if r.content = "" then (st.1, project_matches) else (mergeRecord st.1 r, project_matches)

/-- The whole aggregation loop: the aggregates keyed by source, and the
set of matched projects. -/
def aggregateRecords (records : List Record) : List (String × Aggregate) × Finset String :=
  records.foldl recordStep ([], ∅)

/- ---------------------------------------------------------------------
   Graph expansion (source lines 870-964).
   --------------------------------------------------------------------- -/

/-- `graph_penalty = ghops * 0.1`; `graph_score = max(0.5, min_threshold -
graph_penalty)` (source lines 942-943). -/
def graphScore (min_threshold : ℚ) (ghops : ℕ) : ℚ :=
  let graph_penalty := (ghops : ℚ) * 0.1
  max 0.5 (min_threshold - graph_penalty)

/-- A chunk dict of a graph-expansion aggregate (source lines 949-954). -/
def mkGraphChunk (score : ℚ) (content : String) : Chunk :=
  { content := content, start_offset := 0, similarity := score, boosted_similarity := score }

/-- The aggregate dict inserted for a newly discovered related source
(source lines 948-962); falsy contents are filtered out of both the chunk
list and the count. -/
def mkGraphAgg (min_threshold : ℚ) (g : GraphRecord) : Aggregate :=
  let score := graphScore min_threshold g.hops
  { chunks := (g.contents.filter (fun c => c ≠ "")).map (mkGraphChunk score),
    max_similarity := score, max_boosted_similarity := score,
    chunk_count := (g.contents.filter (fun c => c ≠ "")).length,
    source_type := ("file"), project_name := g.project_name,
    graph_related := true, hops := g.hops, final_score := 0 }

/-- One iteration over the traversal rows (source lines 932-962): skip a
source already aggregated; insert only when the contents list is
non-empty. -/
def addGraphRecord (min_threshold : ℚ) (aggs : List (String × Aggregate)) (g : GraphRecord) :
    List (String × Aggregate) :=
  if (aggs.lookup g.file_path).isSome then aggs
  else if g.contents ≠ [] then aggs ++ [(g.file_path, mkGraphAgg min_threshold g)]
  else aggs

/- ---------------------------------------------------------------------
   Final scoring and formatting (source lines 966-1016).
   --------------------------------------------------------------------- -/

/-- Source lines 967-973: `final_score = max_boosted_similarity +
(chunk_count - 1) * 0.03` (Python int subtraction, hence the cast before
subtracting), and the chunks sorted by boosted similarity descending. -/
def finalizeAgg (agg : Aggregate) : Aggregate :=
  let chunk_diversity_boost := ((agg.chunk_count : ℚ) - 1) * 0.03
  { agg with final_score := agg.max_boosted_similarity + chunk_diversity_boost,
             chunks := sortDesc (fun c => c.boosted_similarity) agg.chunks }

/-- The quality tier label (source lines 999-1001). -/
def qualityLabel (final_score : ℚ) : String :=
  if final_score ≥ 0.90 then "🔥 Excellent"
  else if final_score ≥ 0.80 then "✅ High"
  else if final_score ≥ 0.75 then "📊 Good"
  else "📉 Moderate"

/-- Rendering of a score inside the bundle.  The source formats the float
with `:.3f`; no claim depends on the digit rendering, so the model prints
the exact rational instead of reproducing decimal rounding. -/
def showScore (q : ℚ) : String :=
  toString q.num ++ "/" ++ toString q.den

/-- The chunk parts of one block (source lines 1009-1012): the first chunk
plainly, every later chunk preceded by the elision marker. -/
def chunkParts : List Chunk → List String
  | [] => []
  | c :: cs => (c.content ++ "\n") :: cs.flatMap (fun c2 => ["\n[...]\n\n", c2.content ++ "\n"])

/-- The parts appended for one selected source (source lines 988-1014);
the empty list when the source has no chunks (the `continue` at line 993). -/
def contextParts (p : String × Aggregate) : List String :=
  let agg := p.2
  let top_chunks := agg.chunks.take 2
  if top_chunks.isEmpty then []
  else
    let source_label := if agg.source_type = "memory" then "Memory" else "File"
    let project_label :=
      if agg.project_name ≠ "" ∧ agg.project_name ≠ "unknown" then
        " [" ++ agg.project_name ++ "]"
      else ""
    ("**" ++ source_label ++ ":** " ++ p.1 ++ project_label ++ "\n"
      ++ "**Quality:** " ++ qualityLabel agg.final_score
      ++ " (score: " ++ showScore agg.final_score ++ ", "
      ++ toString agg.chunk_count ++ " matching "
      ++ (if source_label = "Memory" then "entry" else "chunks") ++ ")\n"
      ++ "**Content:**\n```\n")
    :: (chunkParts top_chunks ++ ["```\n\n---\n\n"])

/-- The selected sources that actually produce a block: those whose first
two chunks are non-empty (the `continue` at source line 993). -/
def formattedSources (l : List (String × Aggregate)) : List (String × Aggregate) :=
  l.filter (fun p => !(p.2.chunks.take 2).isEmpty)

/-- `"".join(context_parts)` (source line 1016). -/
def bundleOf (sorted_files : List (String × Aggregate)) : String :=
  String.join ((sorted_files.map contextParts).flatten)

/- ---------------------------------------------------------------------
   Adaptive threshold controller and the whole retrieval
   (source lines 646-685, 779-809, 966-1022).
   --------------------------------------------------------------------- -/

/-- The attempt list (source lines 676-682): the configured threshold,
then — only when adaptive thresholding is enabled — `0.4` if the
configured threshold exceeds `0.4`, and `0.3` if it exceeds `0.3`. -/
def thresholdAttempts (v : Valves) : List ℚ :=
  let threshold_attempts := [v.MIN_SIMILARITY_THRESHOLD]
  if v.ENABLE_ADAPTIVE_THRESHOLD then
    let a1 := if v.MIN_SIMILARITY_THRESHOLD > 0.4 then threshold_attempts ++ [0.4]
              else threshold_attempts
    if v.MIN_SIMILARITY_THRESHOLD > 0.3 then a1 ++ [0.3] else a1
  else threshold_attempts

/-- `initialLimit = max(20, SEMANTIC_SEARCH_LIMIT * 2)` (source line 789). -/
def fetchCap (v : Valves) : ℕ :=
  max 20 (v.SEMANTIC_SEARCH_LIMIT * 2)

/-- The retry loop (source lines 780-806).  Returns the store queries
issued (threshold, `initialLimit`), the final value of `min_threshold`
(the last threshold attempted, used later by graph scoring), and either
the first non-empty row list, or `.ok []` when every attempt was empty, or
the raised error — which the loop does NOT catch: it escapes to the
handler wrapping the whole function (source lines 648, 1018-1022). -/
def runAttempts (store : ℚ → ℕ → Except Unit (List Record)) (cap : ℕ) (min_threshold : ℚ) :
    List ℚ → List (ℚ × ℕ) × ℚ × Except Unit (List Record)
  | [] => ([], min_threshold, Except.ok [])
  | t :: rest =>
    match store t cap with
    | Except.error e => ([(t, cap)], t, Except.error e)
    | Except.ok [] =>
      let p := runAttempts store cap t rest
      ((t, cap) :: p.1, p.2.1, p.2.2)
    | Except.ok (r :: rs) => ([(t, cap)], t, Except.ok (r :: rs))

/-- Everything after a successful retry loop (source lines 811-1016):
aggregation, conditional graph expansion (traversal errors are caught
locally, line 963-964), final scoring, ranking, truncation, formatting. -/
def buildResult (qs : List (ℚ × ℕ)) (min_threshold : ℚ) (records : List Record)
    (graph : Except Unit (List GraphRecord)) (v : Valves) : RetrievalResult :=
  let st := aggregateRecords records
  let file_aggregates := st.1
  let project_matches := st.2
  let expanded :=
    if v.ENABLE_GRAPH_TRAVERSAL = true ∧ 1 < project_matches.card
        ∧ file_aggregates.length < v.SEMANTIC_SEARCH_LIMIT then
      let top_file_paths :=
        ((sortDesc (fun p => p.2.max_boosted_similarity) file_aggregates).take 3).map Prod.fst
      if top_file_paths ≠ [] then
        match graph with
        | Except.error _ => file_aggregates
        | Except.ok graph_records => graph_records.foldl (addGraphRecord min_threshold) file_aggregates
      else file_aggregates
    else file_aggregates
  let finalized := expanded.map (fun p => (p.1, finalizeAgg p.2))
  let sorted_files := (sortDesc (fun p => p.2.final_score) finalized).take v.SEMANTIC_SEARCH_LIMIT
  { queries := qs, aggregates := finalized, selected := sorted_files,
    bundle := bundleOf sorted_files }

/-- `_get_relevant_context` (source lines 646-1022).  `embedding` is the
vector produced by `_get_embedding` (the empty list on any failure, lines
1024-1040); an empty vector short-circuits to the empty bundle before any
store access (lines 661-663).  A store error at any threshold escapes the
retry loop and reaches the outer handler, which returns the empty string
(lines 1018-1022); an empty row list at every threshold also yields the
empty bundle (lines 808-809). -/
def get_relevant_context (embedding : List ℚ) (store : ℚ → ℕ → Except Unit (List Record))
    (graph : Except Unit (List GraphRecord)) (v : Valves) : RetrievalResult :=
  if embedding = [] then { queries := [], aggregates := [], selected := [], bundle := "" }
  else
    match runAttempts store (fetchCap v) v.MIN_SIMILARITY_THRESHOLD (thresholdAttempts v) with
    | (qs, _, Except.error _) => { queries := qs, aggregates := [], selected := [], bundle := "" }
    | (qs, _, Except.ok []) => { queries := qs, aggregates := [], selected := [], bundle := "" }
    | (qs, min_threshold, Except.ok (r :: rs)) => buildResult qs min_threshold (r :: rs) graph v

/-- The empty-content invariant over a family of aggregates. -/
def chunksOK (aggs : List (String × Aggregate)) : Prop :=
  ∀ p ∈ aggs, ∀ c ∈ p.2.chunks, c.content ≠ ""

/- ---------------------------------------------------------------------
   Concrete fixtures used by counterexamples and witnesses.
   --------------------------------------------------------------------- -/

/-- The default configuration (source lines 56-96). -/
def v0 : Valves :=
  { SEMANTIC_SEARCH_LIMIT := 10, MIN_SIMILARITY_THRESHOLD := 0.55,
    ENABLE_ADAPTIVE_THRESHOLD := true, ENABLE_GRAPH_TRAVERSAL := true,
    GRAPH_TRAVERSAL_DEPTH := 2, ENABLE_HYBRID_SEARCH := true }

/-- A well-formed store row. -/
def rec0 : Record :=
  { content := "hello chunk", start_offset := 0, file_path := "/workspace/alpha/a.py",
    file_name := "a.py", similarity := 0.6, boosted_similarity := 0.6,
    source_type := "file_chunk", project_name := "alpha" }

/-- A store that succeeds with one row at every threshold. -/
def store0 : ℚ → ℕ → Except Unit (List Record) :=
  fun _ _ => Except.ok [rec0]

/-- A store that raises at threshold `0.55` and would succeed at any other
threshold. -/
def store55 : ℚ → ℕ → Except Unit (List Record) :=
  fun t _ => if t = 0.55 then Except.error () else Except.ok [rec0]

/-- A store that returns no rows at threshold `0.55` and one row at any
other threshold. -/
def storeSkip : ℚ → ℕ → Except Unit (List Record) :=
  fun t _ => if t = 0.55 then Except.ok [] else Except.ok [rec0]

/-- A low-threshold configuration: `MIN_SIMILARITY_THRESHOLD = 0.3`, all
features enabled. -/
def v3 : Valves :=
  { SEMANTIC_SEARCH_LIMIT := 10, MIN_SIMILARITY_THRESHOLD := 0.3,
    ENABLE_ADAPTIVE_THRESHOLD := true, ENABLE_GRAPH_TRAVERSAL := true,
    GRAPH_TRAVERSAL_DEPTH := 2, ENABLE_HYBRID_SEARCH := false }

/-- A direct hit sitting exactly at the `0.3` threshold, project `alpha`. -/
def recA : Record :=
  { content := "alpha chunk", start_offset := 0, file_path := "/workspace/alpha/a.py",
    file_name := "a.py", similarity := 0.3, boosted_similarity := 0.3,
    source_type := "file", project_name := "alpha" }

/-- A direct hit just above the threshold, project `beta`. -/
def recB : Record :=
  { content := "beta chunk", start_offset := 0, file_path := "/workspace/beta/b.py",
    file_name := "b.py", similarity := 0.31, boosted_similarity := 0.31,
    source_type := "file", project_name := "beta" }

/-- A store returning the two cross-project hits at every threshold. -/
def store3 : ℚ → ℕ → Except Unit (List Record) :=
  fun _ _ => Except.ok [recA, recB]

/-- A related document one hop away, discovered by graph traversal. -/
def grecG : GraphRecord :=
  { file_path := "/workspace/gamma/g.py", file_name := "g.py",
    contents := ["gamma content"], hops := 1, project_name := "gamma" }

/-- A traversal result containing the single related document. -/
def graph3 : Except Unit (List GraphRecord) :=
  Except.ok [grecG]

/-- A file row whose path places it under a project literally named
`memory`, with the project name derived exactly as the store query derives
it (source lines 707-710). -/
def fileRecMem : Record :=
  { content := "memory project file", start_offset := 0,
    file_path := "/workspace/memory/a.py", file_name := "a.py",
    similarity := 0.6, boosted_similarity := 0.6, source_type := "file",
    project_name := projectFromPath ("/workspace/memory/a.py") }

/-- The chunk produced by aggregating `rec0`. -/
def c0 : Chunk :=
  { content := "hello chunk", start_offset := 0, similarity := 0.6,
    boosted_similarity := 0.6 }

/-- The finalized aggregate produced by a retrieval that returns only
`rec0`. -/
def p0 : String × Aggregate :=
  ("/workspace/alpha/a.py",
   { chunks := [c0], max_similarity := 0.6, max_boosted_similarity := 0.6,
     chunk_count := 1, source_type := "file_chunk", project_name := "alpha",
     graph_related := false, hops := 0, final_score := 0.6 })

/-- An aggregate holding one chunk. -/
def aggD1 : Aggregate :=
  { chunks := [c0], max_similarity := 0.6, max_boosted_similarity := 0.6,
    chunk_count := 1, source_type := "file", project_name := "alpha",
    graph_related := false, hops := 0, final_score := 0 }

/-- An aggregate with the same maximal boosted similarity as `aggD1` but
two chunks. -/
def aggD2 : Aggregate :=
  { chunks := [c0, c0], max_similarity := 0.6, max_boosted_similarity := 0.6,
    chunk_count := 2, source_type := "file", project_name := "alpha",
    graph_related := false, hops := 0, final_score := 0 }

/- ---------------------------------------------------------------------
   Helper lemmas.
   --------------------------------------------------------------------- -/

theorem mem_insertDesc {α : Type} (key : α → ℚ) (x : α) (l : List α) (a : α) :
    a ∈ insertDesc key x l ↔ a = x ∨ a ∈ l := by
  induction l with
  | nil => simp [insertDesc]
  | cons y ys ih =>
    simp only [insertDesc]
    split
    · simp only [List.mem_cons, ih]; try tauto
    · simp only [List.mem_cons]; try tauto

theorem mem_sortDesc {α : Type} (key : α → ℚ) (l : List α) (a : α) :
    a ∈ sortDesc key l ↔ a ∈ l := by
  induction l with
  | nil => simp [sortDesc]
  | cons y ys ih => simp [sortDesc, mem_insertDesc, ih]

theorem foldl_inv {α σ : Type} (P : σ → Prop) (f : σ → α → σ)
    (hf : ∀ t a, P t → P (f t a)) :
    ∀ (l : List α) (s : σ), P s → P (l.foldl f s) := by
  intro l
  induction l with
  | nil => intro s hs; simpa using hs
  | cons x xs ih => intro s hs; simpa using ih (f s x) (hf s x hs)

theorem chunksOK_append (a b : List (String × Aggregate))
    (ha : chunksOK a) (hb : chunksOK b) : chunksOK (a ++ b) := by
  intro p hp
  rcases List.mem_append.mp hp with h | h
  · exact ha p h
  · exact hb p h

theorem chunksOK_mergeRecord (aggs : List (String × Aggregate)) (r : Record)
    (h : chunksOK aggs) (hr : r.content ≠ "") : chunksOK (mergeRecord aggs r) := by
  unfold mergeRecord
  have hbase : chunksOK (if ((aggs.lookup (filePathOf r)).isNone : Bool)
      then aggs ++ [(filePathOf r, freshAgg r)] else aggs) := by
    split
    · refine chunksOK_append _ _ h ?_
      intro p hp c hc
      simp only [List.mem_singleton] at hp
      subst hp
      simp [freshAgg] at hc
    · exact h
  intro p hp c hc
  rcases List.mem_map.mp hp with ⟨q, hq, hpq⟩
  by_cases hfp : q.1 = filePathOf r
  · rw [if_pos hfp] at hpq
    subst hpq
    simp only [mergeInto] at hc
    rcases List.mem_append.mp hc with h1 | h1
    · exact hbase q hq c h1
    · simp only [List.mem_singleton] at h1
      subst h1
      simpa [mkChunk] using hr
  · rw [if_neg hfp] at hpq
    subst hpq
    exact hbase q hq c hc

theorem recordStep_fst (st : List (String × Aggregate) × Finset String) (r : Record) :
    (recordStep st r).1 = if r.content = "" then st.1 else mergeRecord st.1 r := by
  by_cases hc : r.content = "" <;> simp [recordStep, hc]

theorem recordStep_snd (st : List (String × Aggregate) × Finset String) (r : Record) :
    (recordStep st r).2
      = if r.project_name ≠ "unknown" then insert r.project_name st.2 else st.2 := by
  by_cases hc : r.content = "" <;> simp [recordStep, hc]

theorem chunksOK_aggregateRecords (records : List Record) :
    chunksOK (aggregateRecords records).1 := by
  unfold aggregateRecords
  refine foldl_inv (fun st : List (String × Aggregate) × Finset String => chunksOK st.1)
    recordStep ?_ records ([], ∅) ?_
  · intro st r hst
    show chunksOK (recordStep st r).1
    rw [recordStep_fst]
    by_cases hc : r.content = ""
    · rw [if_pos hc]; exact hst
    · rw [if_neg hc]; exact chunksOK_mergeRecord st.1 r hst hc
  · intro p hp; simp at hp

theorem chunksOK_addGraphRecord (mt : ℚ) (aggs : List (String × Aggregate)) (g : GraphRecord)
    (h : chunksOK aggs) : chunksOK (addGraphRecord mt aggs g) := by
  unfold addGraphRecord
  split
  · exact h
  · split
    · refine chunksOK_append _ _ h ?_
      intro p hp c hc
      simp only [List.mem_singleton] at hp
      subst hp
      simp only [mkGraphAgg] at hc
      rcases List.mem_map.mp hc with ⟨x, hx, hxc⟩
      subst hxc
      simpa [mkGraphChunk] using (List.mem_filter.mp hx).2
    · exact h

theorem chunksOK_graphFold (mt : ℚ) (l : List GraphRecord) (aggs : List (String × Aggregate))
    (h : chunksOK aggs) : chunksOK (l.foldl (addGraphRecord mt) aggs) :=
  foldl_inv chunksOK (addGraphRecord mt) (fun t a ht => chunksOK_addGraphRecord mt t a ht) l aggs h

theorem chunksOK_finalize (aggs : List (String × Aggregate)) (h : chunksOK aggs) :
    chunksOK (aggs.map (fun p => (p.1, finalizeAgg p.2))) := by
  intro p hp c hc
  rcases List.mem_map.mp hp with ⟨q, hq, hpq⟩
  subst hpq
  simp only [finalizeAgg] at hc
  exact h q hq c ((mem_sortDesc _ _ _).mp hc)

theorem chunksOK_buildResult (qs : List (ℚ × ℕ)) (mt : ℚ) (records : List Record)
    (graph : Except Unit (List GraphRecord)) (v : Valves) :
    chunksOK (buildResult qs mt records graph v).aggregates := by
  have h0 : chunksOK (aggregateRecords records).1 := chunksOK_aggregateRecords records
  simp only [buildResult]
  apply chunksOK_finalize
  repeat' split
  all_goals first
    | exact h0
    | exact chunksOK_graphFold mt _ _ h0

theorem buildResult_selected_mem (qs : List (ℚ × ℕ)) (mt : ℚ) (records : List Record)
    (graph : Except Unit (List GraphRecord)) (v : Valves) (p : String × Aggregate)
    (hp : p ∈ (buildResult qs mt records graph v).selected) :
    p ∈ (buildResult qs mt records graph v).aggregates := by
  simp only [buildResult] at hp ⊢
  exact (mem_sortDesc _ _ _).mp ((List.take_sublist _ _).subset hp)

theorem runAttempts_mt_irrel (store : ℚ → ℕ → Except Unit (List Record)) (cap : ℕ)
    (mt mt2 t : ℚ) (rest : List ℚ) :
    runAttempts store cap mt (t :: rest) = runAttempts store cap mt2 (t :: rest) := by
  simp only [runAttempts]

theorem runAttempts_stop_err (store : ℚ → ℕ → Except Unit (List Record)) (cap : ℕ)
    (mt t : ℚ) (rest : List ℚ) (ht : store t cap = Except.error ()) :
    runAttempts store cap mt (t :: rest) = ([(t, cap)], t, Except.error ()) := by
  simp only [runAttempts]
  rw [ht]

theorem runAttempts_stop_ok (store : ℚ → ℕ → Except Unit (List Record)) (cap : ℕ)
    (mt t : ℚ) (rest : List ℚ) (r : Record) (rs : List Record)
    (ht : store t cap = Except.ok (r :: rs)) :
    runAttempts store cap mt (t :: rest) = ([(t, cap)], t, Except.ok (r :: rs)) := by
  simp only [runAttempts]
  rw [ht]

theorem runAttempts_append (store : ℚ → ℕ → Except Unit (List Record)) (cap : ℕ)
    (t : ℚ) (post : List ℚ) :
    ∀ (pre : List ℚ) (mt : ℚ), (∀ s ∈ pre, store s cap = Except.ok []) →
    runAttempts store cap mt (pre ++ t :: post)
      = ((pre.map (fun s => (s, cap))) ++ (runAttempts store cap mt (t :: post)).1,
         (runAttempts store cap mt (t :: post)).2.1,
         (runAttempts store cap mt (t :: post)).2.2) := by
  intro pre
  induction pre with
  | nil => intro mt h; rfl
  | cons s pre ih =>
    intro mt h
    have hs : store s cap = Except.ok [] := h s (by simp)
    have hrest : runAttempts store cap mt (s :: (pre ++ t :: post))
        = ((s, cap) :: (runAttempts store cap s (pre ++ t :: post)).1,
           (runAttempts store cap s (pre ++ t :: post)).2.1,
           (runAttempts store cap s (pre ++ t :: post)).2.2) := by
      simp only [runAttempts]
      rw [hs]
    rw [List.cons_append, hrest, ih s (fun x hx => h x (by simp [hx]))]
    rw [runAttempts_mt_irrel store cap s mt t post]
    simp

theorem queries_of_run (e : List ℚ) (store : ℚ → ℕ → Except Unit (List Record))
    (graph : Except Unit (List GraphRecord)) (v : Valves)
    (qs : List (ℚ × ℕ)) (mt : ℚ) (res : Except Unit (List Record))
    (he : e ≠ [])
    (h : runAttempts store (fetchCap v) v.MIN_SIMILARITY_THRESHOLD (thresholdAttempts v)
          = (qs, mt, res)) :
    (get_relevant_context e store graph v).queries = qs := by
  unfold get_relevant_context
  rw [if_neg he, h]
  match res with
  | Except.error err => rfl
  | Except.ok [] => rfl
  | Except.ok (r :: rs) => simp [buildResult]

theorem error_result (e : List ℚ) (store : ℚ → ℕ → Except Unit (List Record))
    (graph : Except Unit (List GraphRecord)) (v : Valves)
    (qs : List (ℚ × ℕ)) (mt : ℚ)
    (he : e ≠ [])
    (h : runAttempts store (fetchCap v) v.MIN_SIMILARITY_THRESHOLD (thresholdAttempts v)
          = (qs, mt, Except.error ())) :
    get_relevant_context e store graph v
      = { queries := qs, aggregates := [], selected := [], bundle := "" } := by
  unfold get_relevant_context
  rw [if_neg he, h]

theorem matchCount_eq (keywords : List String) (content source_path : String) :
    matchCount keywords content source_path
      = keywords.countP (fun kw => containsStr (pyLower content) kw)
        + keywords.countP (fun kw => containsStr (pyLower source_path) kw) := by
  have gen : ∀ (l : List String) (n : ℕ),
      l.foldl (fun acc kw =>
        acc + (if containsStr (pyLower content) kw then 1 else 0)
            + (if containsStr (pyLower source_path) kw then 1 else 0)) n
        = n + l.countP (fun kw => containsStr (pyLower content) kw)
            + l.countP (fun kw => containsStr (pyLower source_path) kw) := by
    intro l
    induction l with
    | nil => intro n; simp
    | cons x xs ih =>
      intro n
      simp only [List.foldl_cons, List.countP_cons]
      rw [ih]
      by_cases hx : containsStr (pyLower content) x = true <;>
        by_cases hy : containsStr (pyLower source_path) x = true <;>
        simp [hx, hy] <;> omega
  simpa using gen keywords 0

/- ---------------------------------------------------------------------
   Claim theorems.
   --------------------------------------------------------------------- -/

/-- C1: the claim states that when either vector's norm is zero the
computed similarity is `0`.  The store query divides by `normA * normB`
without any zero-norm guard (source line 704), so on a zero stored vector
the computation is `0.0 / 0.0`, which under Cypher's IEEE-754 float
semantics is NaN — not the similarity `0` the specification requires.
This theorem evaluates the unguarded division at the failing input
(stored vector `[0]`, query vector `[1]`) for every float square-root
routine that is exact at `0`. -/
theorem cosine_zero_norm_bug (sqrtFn : ℚ → ℚ) (h0 : sqrtFn 0 = 0) :
    cosineSimilarity sqrtFn [0] [1] = CFloat.nan ∧ CFloat.nan ≠ CFloat.num 0 := by
  constructor
  · have h1 : sumSquares [0] = 0 := by norm_num [sumSquares]
    have h2 : dotProduct [0] [1] = 0 := by
      norm_num [dotProduct, List.range_succ, List.range_zero]
    unfold cosineSimilarity
    rw [h1, h2, h0, zero_mul]
    rfl
  · intro h
    cases h

/-- Witness for C1 at the exact square root routine `fun _ => 0`. -/
theorem cosine_zero_norm_bug_witness :
    cosineSimilarity (fun _ => 0) [0] [1] = CFloat.nan ∧ CFloat.nan ≠ CFloat.num 0 :=
  cosine_zero_norm_bug (fun _ => 0) rfl

/-- C5: a failed embedding call (empty/absent vector, modelled by the
empty list, source lines 1024-1040) makes the retrieval return the empty
string as its Context Bundle and issue no store query (source lines
660-663). -/
theorem empty_embedding_shortcircuit (embedding : List ℚ)
    (store : ℚ → ℕ → Except Unit (List Record)) (graph : Except Unit (List GraphRecord))
    (v : Valves) (he : embedding = []) :
    (get_relevant_context embedding store graph v).bundle = ""
    ∧ (get_relevant_context embedding store graph v).queries = [] := by
  subst he
  exact ⟨rfl, rfl⟩

/-- Witness for C5 at a concrete store and configuration. -/
theorem empty_embedding_shortcircuit_witness :
    (get_relevant_context [] store0 (Except.ok []) v0).bundle = ""
    ∧ (get_relevant_context [] store0 (Except.ok []) v0).queries = [] :=
  empty_embedding_shortcircuit [] store0 (Except.ok []) v0 rfl

/-- C6: `final_score = max_boosted_similarity + 0.03 * (chunk_count - 1)`
(source lines 968-970), and for two Source Aggregates with equal
`max_boosted_similarity` the one with more chunks has a strictly higher
`final_score`. -/
theorem diversity_bonus_spec (a b : Aggregate)
    (h1 : a.max_boosted_similarity = b.max_boosted_similarity)
    (h2 : a.chunk_count < b.chunk_count) :
    (finalizeAgg a).final_score
      = a.max_boosted_similarity + 0.03 * ((a.chunk_count : ℚ) - 1)
    ∧ (finalizeAgg b).final_score
      = b.max_boosted_similarity + 0.03 * ((b.chunk_count : ℚ) - 1)
    ∧ (finalizeAgg a).final_score < (finalizeAgg b).final_score := by
  have e1 : (finalizeAgg a).final_score
      = a.max_boosted_similarity + ((a.chunk_count : ℚ) - 1) * 0.03 := rfl
  have e2 : (finalizeAgg b).final_score
      = b.max_boosted_similarity + ((b.chunk_count : ℚ) - 1) * 0.03 := rfl
  have hc : (a.chunk_count : ℚ) < (b.chunk_count : ℚ) := by exact_mod_cast h2
  refine ⟨by rw [e1]; ring, by rw [e2]; ring, ?_⟩
  rw [e1, e2, h1]
  nlinarith

/-- Witness for C6 at one-chunk and two-chunk aggregates with equal
maximal boosted similarity. -/
theorem diversity_bonus_spec_witness :
    (finalizeAgg aggD1).final_score
      = aggD1.max_boosted_similarity + 0.03 * ((aggD1.chunk_count : ℚ) - 1)
    ∧ (finalizeAgg aggD2).final_score
      = aggD2.max_boosted_similarity + 0.03 * ((aggD2.chunk_count : ℚ) - 1)
    ∧ (finalizeAgg aggD1).final_score < (finalizeAgg aggD2).final_score :=
  diversity_bonus_spec aggD1 aggD2 rfl (by decide)

/-- C8: with hybrid mode enabled and at least one keyword,
`keyword_boost` is `0.02` times the number of keywords occurring in the
lowercased content plus the number occurring in the lowercased source
path; `boosted_similarity = similarity + keyword_boost`; otherwise the
boost is `0` (source lines 753-766).  Keywords are the tokens of the
lowercased query that are longer than 3 characters (source lines
688-689). -/
theorem keyword_boost_spec (enableHybrid : Bool) (keywords : List String)
    (content source_path : String) (similarity : ℚ) (q w : String)
    (hw : w ∈ extract_keywords q) :
    keyword_boost enableHybrid keywords content source_path
      = (if enableHybrid = true ∧ keywords ≠ [] then
          (0.02 : ℚ) * ((keywords.countP (fun kw => containsStr (pyLower content) kw) : ℚ)
              + (keywords.countP (fun kw => containsStr (pyLower source_path) kw) : ℚ))
        else 0)
    ∧ hybridBoosted enableHybrid keywords similarity content source_path
        = similarity + keyword_boost enableHybrid keywords content source_path
    ∧ 3 < w.length := by
  refine ⟨?_, rfl, ?_⟩
  · unfold keyword_boost
    have hcond : (enableHybrid = true ∧ keywords.length > 0)
        ↔ (enableHybrid = true ∧ keywords ≠ []) := by
      constructor
      · rintro ⟨hb, hl⟩; exact ⟨hb, List.length_pos.mp hl⟩
      · rintro ⟨hb, hl⟩; exact ⟨hb, List.length_pos.mpr hl⟩
    rw [if_congr hcond rfl rfl]
    split
    · rw [matchCount_eq]; push_cast; ring
    · rfl
  · simp only [extract_keywords] at hw
    have := (List.mem_filter.mp hw).2
    simpa using this

/-- Witness for C8 at a concrete hybrid query. -/
theorem keyword_boost_spec_witness :
    keyword_boost true ["test"] ("the test doc") ("/x")
      = (if true = true ∧ (["test"] : List String) ≠ [] then
          (0.02 : ℚ) * (((["test"] : List String).countP
                (fun kw => containsStr (pyLower ("the test doc")) kw) : ℚ)
              + ((["test"] : List String).countP
                (fun kw => containsStr (pyLower ("/x")) kw) : ℚ))
        else 0)
    ∧ hybridBoosted true ["test"] 0.5 ("the test doc") ("/x")
        = 0.5 + keyword_boost true ["test"] ("the test doc") ("/x")
    ∧ 3 < ("testing" : String).length :=
  keyword_boost_spec true ["test"] ("the test doc") ("/x") 0.5
    ("seek testing here") ("testing") (by decide)

theorem grc_ok (e : List ℚ) (store : ℚ → ℕ → Except Unit (List Record))
    (graph : Except Unit (List GraphRecord)) (v : Valves)
    (qs : List (ℚ × ℕ)) (mt : ℚ) (r : Record) (rs : List Record)
    (he : e ≠ [])
    (h : runAttempts store (fetchCap v) v.MIN_SIMILARITY_THRESHOLD (thresholdAttempts v)
          = (qs, mt, Except.ok (r :: rs))) :
    get_relevant_context e store graph v = buildResult qs mt (r :: rs) graph v := by
  unfold get_relevant_context
  rw [if_neg he, h]

theorem grc_ok_nil (e : List ℚ) (store : ℚ → ℕ → Except Unit (List Record))
    (graph : Except Unit (List GraphRecord)) (v : Valves)
    (qs : List (ℚ × ℕ)) (mt : ℚ)
    (he : e ≠ [])
    (h : runAttempts store (fetchCap v) v.MIN_SIMILARITY_THRESHOLD (thresholdAttempts v)
          = (qs, mt, Except.ok [])) :
    get_relevant_context e store graph v
      = { queries := qs, aggregates := [], selected := [], bundle := "" } := by
  unfold get_relevant_context
  rw [if_neg he, h]

/-- C2 (counterexample): with the default configuration the attempt list
is `[0.55, 0.4, 0.3]` and the store `store55` raises only at `0.55` (it
would return a row at `0.4`), yet the retrieval issues only the single
query at threshold `0.55` and returns the empty bundle: the failure at one
threshold prevents the store query at the next threshold, because the
retry loop has no per-threshold exception handling — the error escapes to
the handler wrapping the whole function (source lines 780-806, 1018-1022). -/
theorem threshold_retry_error_counterexample :
    thresholdAttempts v0 = [0.55, 0.4, 0.3]
    ∧ store55 0.4 (fetchCap v0) = Except.ok [rec0]
    ∧ (get_relevant_context [1] store55 (Except.ok []) v0).queries = [(0.55, 20)]
    ∧ (get_relevant_context [1] store55 (Except.ok []) v0).bundle = "" := by
  refine ⟨by norm_num [thresholdAttempts, v0], by norm_num [store55, fetchCap, v0], ?_, ?_⟩
  · norm_num [get_relevant_context, runAttempts, thresholdAttempts, fetchCap, v0, store55]
  · norm_num [get_relevant_context, runAttempts, thresholdAttempts, fetchCap, v0, store55]

/-- C2 (amended): a store-query failure at any threshold aborts the whole
retry loop — the queries issued are exactly the earlier (empty) attempts
plus the failing one, no lower threshold is queried, and the retrieval
returns the empty bundle via the outer exception handler. -/
theorem threshold_retry_error_aborts (e : List ℚ)
    (store : ℚ → ℕ → Except Unit (List Record)) (graph : Except Unit (List GraphRecord))
    (v : Valves) (pre post : List ℚ) (t : ℚ)
    (he : e ≠ [])
    (hatt : thresholdAttempts v = pre ++ t :: post)
    (hpre : ∀ s ∈ pre, store s (fetchCap v) = Except.ok [])
    (ht : store t (fetchCap v) = Except.error ()) :
    (get_relevant_context e store graph v).queries
      = (pre.map (fun s => (s, fetchCap v))) ++ [(t, fetchCap v)]
    ∧ (get_relevant_context e store graph v).bundle = ""
    ∧ (get_relevant_context e store graph v).selected = [] := by
  have happ := runAttempts_append store (fetchCap v) t post pre v.MIN_SIMILARITY_THRESHOLD hpre
  rw [runAttempts_stop_err store (fetchCap v) v.MIN_SIMILARITY_THRESHOLD t post ht] at happ
  simp only at happ
  rw [← hatt] at happ
  have hres := error_result e store graph v _ _ he happ
  rw [hres]
  exact ⟨rfl, rfl, rfl⟩

/-- Witness for the amended C2: the failure at the first threshold of the
default attempt list. -/
theorem threshold_retry_error_aborts_witness :
    (get_relevant_context [1] store55 (Except.ok []) v0).queries
      = (([] : List ℚ).map (fun s => (s, fetchCap v0))) ++ [((0.55 : ℚ), fetchCap v0)]
    ∧ (get_relevant_context [1] store55 (Except.ok []) v0).bundle = ""
    ∧ (get_relevant_context [1] store55 (Except.ok []) v0).selected = [] :=
  threshold_retry_error_aborts [1] store55 (Except.ok []) v0 [] [0.4, 0.3] 0.55
    (by simp)
    (by norm_num [thresholdAttempts, v0])
    (by simp)
    (by norm_num [store55, fetchCap, v0])

/-- C4: the attempt list is the configured threshold, plus `0.4` when
adaptive mode is on and the threshold exceeds `0.4`, plus `0.3` when
adaptive mode is on and the threshold exceeds `0.3` (source lines
676-682); every attempt issues one store query with that threshold and
fetch cap `max(20, 2 * limit)` (source line 789), and the loop stops at
the first attempt returning at least one candidate (source lines
780-798). -/
theorem adaptive_threshold_loop_spec (e : List ℚ)
    (store : ℚ → ℕ → Except Unit (List Record)) (graph : Except Unit (List GraphRecord))
    (v : Valves) (pre post : List ℚ) (t : ℚ) (r : Record) (rs : List Record)
    (he : e ≠ [])
    (hatt : thresholdAttempts v = pre ++ t :: post)
    (hpre : ∀ s ∈ pre, store s (fetchCap v) = Except.ok [])
    (ht : store t (fetchCap v) = Except.ok (r :: rs)) :
    thresholdAttempts v
      = [v.MIN_SIMILARITY_THRESHOLD]
        ++ (if v.ENABLE_ADAPTIVE_THRESHOLD = true ∧ v.MIN_SIMILARITY_THRESHOLD > 0.4
            then [(0.4 : ℚ)] else [])
        ++ (if v.ENABLE_ADAPTIVE_THRESHOLD = true ∧ v.MIN_SIMILARITY_THRESHOLD > 0.3
            then [(0.3 : ℚ)] else [])
    ∧ fetchCap v = max 20 (v.SEMANTIC_SEARCH_LIMIT * 2)
    ∧ (get_relevant_context e store graph v).queries
        = (pre.map (fun s => (s, fetchCap v))) ++ [(t, fetchCap v)]
    ∧ (runAttempts store (fetchCap v) v.MIN_SIMILARITY_THRESHOLD (thresholdAttempts v)).2.2
        = Except.ok (r :: rs) := by
  have happ := runAttempts_append store (fetchCap v) t post pre v.MIN_SIMILARITY_THRESHOLD hpre
  rw [runAttempts_stop_ok store (fetchCap v) v.MIN_SIMILARITY_THRESHOLD t post r rs ht] at happ
  simp only at happ
  rw [← hatt] at happ
  refine ⟨?_, rfl, queries_of_run e store graph v _ _ _ he happ, by rw [happ]⟩
  unfold thresholdAttempts
  cases hb : v.ENABLE_ADAPTIVE_THRESHOLD with
  | false => simp [hb]
  | true =>
    by_cases h4 : v.MIN_SIMILARITY_THRESHOLD > 0.4 <;>
      by_cases h3 : v.MIN_SIMILARITY_THRESHOLD > 0.3 <;>
      simp [hb, h4, h3]

/-- Witness for C4: with the default configuration and a store that is
empty at `0.55` and succeeds at `0.4`, the loop issues the `0.55` and
`0.4` queries (both with cap 20) and stops, never reaching `0.3`. -/
theorem adaptive_threshold_loop_spec_witness :
    thresholdAttempts v0
      = [v0.MIN_SIMILARITY_THRESHOLD]
        ++ (if v0.ENABLE_ADAPTIVE_THRESHOLD = true ∧ v0.MIN_SIMILARITY_THRESHOLD > 0.4
            then [(0.4 : ℚ)] else [])
        ++ (if v0.ENABLE_ADAPTIVE_THRESHOLD = true ∧ v0.MIN_SIMILARITY_THRESHOLD > 0.3
            then [(0.3 : ℚ)] else [])
    ∧ fetchCap v0 = max 20 (v0.SEMANTIC_SEARCH_LIMIT * 2)
    ∧ (get_relevant_context [1] storeSkip (Except.ok []) v0).queries
        = (([(0.55 : ℚ)]).map (fun s => (s, fetchCap v0))) ++ [((0.4 : ℚ), fetchCap v0)]
    ∧ (runAttempts storeSkip (fetchCap v0) v0.MIN_SIMILARITY_THRESHOLD (thresholdAttempts v0)).2.2
        = Except.ok (rec0 :: []) :=
  adaptive_threshold_loop_spec [1] storeSkip (Except.ok []) v0 [0.55] [0.3] 0.4 rec0 []
    (by simp)
    (by norm_num [thresholdAttempts, v0])
    (by
      intro s hs
      simp only [List.mem_singleton] at hs
      subst hs
      norm_num [storeSkip, fetchCap, v0])
    (by norm_num [storeSkip, fetchCap, v0])

/-- C3 (counterexample): at effective threshold `0.3` (a legitimate value
both as configuration and as adaptive fallback), a source discovered by
graph expansion one hop away receives `graph_score = max(0.5, 0.3 - 0.1) =
0.5` and is ranked FIRST in the selection, above both direct hits (with
similarities `0.31` and `0.3`) — refuting the claim that graph-derived
results never rank as confidently as direct hits.  The score formula and
floor parts of the claim do hold (see the amended theorem). -/
theorem graph_rank_counterexample :
    (get_relevant_context [1] store3 graph3 v3).selected.map
        (fun p => (p.1, p.2.graph_related, p.2.final_score))
      = [("/workspace/gamma/g.py", true, 0.5), ("/workspace/beta/b.py", false, 0.31),
         ("/workspace/alpha/a.py", false, 0.3)]
    ∧ recA.similarity ≥ v3.MIN_SIMILARITY_THRESHOLD
    ∧ graphScore v3.MIN_SIMILARITY_THRESHOLD 1 > recA.similarity := by
  refine ⟨?_, by norm_num [recA, v3], by norm_num [graphScore, recA, v3]⟩
  norm_num +decide [get_relevant_context, buildResult, runAttempts, thresholdAttempts,
    fetchCap, aggregateRecords, recordStep, mergeRecord, mergeInto, freshAgg, mkChunk,
    filePathOf, addGraphRecord, mkGraphAgg, mkGraphChunk, graphScore, finalizeAgg,
    sortDesc, insertDesc, v3, store3, graph3, recA, recB, grecG, List.lookup]

/-- C3 (amended): a source newly discovered by graph expansion (not
already aggregated, with non-empty contents) is inserted with score
`max(0.5, effective_min_threshold - 0.1 * hop_count)` and
`graph_related = true`; the score is never below `0.5` regardless of
depth; and whenever the effective minimum threshold exceeds `0.5`, the
graph score is strictly below every direct hit's similarity (direct hits
satisfy `similarity ≥ threshold`); for effective thresholds at most `0.5`
this strict domination can fail (see the counterexample). -/
theorem graph_score_amended (min_threshold sim : ℚ) (g : GraphRecord)
    (aggs : List (String × Aggregate))
    (hnew : (aggs.lookup g.file_path).isSome = false)
    (hc : g.contents ≠ [])
    (hh : 1 ≤ g.hops) (hT : 0.5 < min_threshold) (hsim : min_threshold ≤ sim) :
    addGraphRecord min_threshold aggs g = aggs ++ [(g.file_path, mkGraphAgg min_threshold g)]
    ∧ (mkGraphAgg min_threshold g).max_boosted_similarity
        = max 0.5 (min_threshold - (g.hops : ℚ) * 0.1)
    ∧ (mkGraphAgg min_threshold g).graph_related = true
    ∧ (0.5 : ℚ) ≤ graphScore min_threshold g.hops
    ∧ graphScore min_threshold g.hops < sim := by
  have hgs : graphScore min_threshold g.hops
      = max 0.5 (min_threshold - (g.hops : ℚ) * 0.1) := rfl
  refine ⟨?_, rfl, rfl, by rw [hgs]; exact le_max_left _ _, ?_⟩
  · simp [addGraphRecord, hnew, hc]
  · rw [hgs]
    apply max_lt
    · linarith
    · have hcast : (1 : ℚ) ≤ (g.hops : ℚ) := by exact_mod_cast hh
      nlinarith

/-- Witness for the amended C3 at threshold `0.55` and a one-hop related
source. -/
theorem graph_score_amended_witness :
    addGraphRecord 0.55 [] grecG = [] ++ [(grecG.file_path, mkGraphAgg 0.55 grecG)]
    ∧ (mkGraphAgg 0.55 grecG).max_boosted_similarity
        = max 0.5 (0.55 - (grecG.hops : ℚ) * 0.1)
    ∧ (mkGraphAgg 0.55 grecG).graph_related = true
    ∧ (0.5 : ℚ) ≤ graphScore 0.55 grecG.hops
    ∧ graphScore 0.55 grecG.hops < 0.6 :=
  graph_score_amended 0.55 0.6 grecG [] rfl (by decide) (by decide)
    (by norm_num) (by norm_num)

/-- C7: the Context Bundle contains at most the configured result limit
of formatted sources, graph-expansion additions included (the selection is
truncated to the limit only after expansion, source lines 975-980, and
formatting only filters it further, lines 986-1016). -/
theorem result_limit_invariant (e : List ℚ) (store : ℚ → ℕ → Except Unit (List Record))
    (graph : Except Unit (List GraphRecord)) (v : Valves) :
    (formattedSources (get_relevant_context e store graph v).selected).length
      ≤ v.SEMANTIC_SEARCH_LIMIT := by
  by_cases he : e = []
  · subst he
    simp [get_relevant_context, formattedSources]
  · rcases hrun : runAttempts store (fetchCap v) v.MIN_SIMILARITY_THRESHOLD (thresholdAttempts v)
      with ⟨qs, mt, res⟩
    cases res with
    | error err =>
      cases err
      rw [error_result e store graph v qs mt he hrun]
      simp [formattedSources]
    | ok recs =>
      cases recs with
      | nil =>
        rw [grc_ok_nil e store graph v qs mt he hrun]
        simp [formattedSources]
      | cons r rs =>
        rw [grc_ok e store graph v qs mt r rs he hrun]
        simp only [formattedSources]
        refine le_trans (List.length_filter_le _ _) ?_
        simp only [buildResult]
        rw [List.length_take]
        exact min_le_left _ _

/-- C9: no Candidate Record with empty content is merged into any Source
Aggregate (source lines 837-839 for store rows, 949-957 for
graph-expansion contents), and no empty-content chunk appears among the
chunks rendered into the final bundle. -/
theorem empty_content_exclusion (e : List ℚ) (store : ℚ → ℕ → Except Unit (List Record))
    (graph : Except Unit (List GraphRecord)) (v : Valves)
    (p q : String × Aggregate) (c d : Chunk)
    (hp : p ∈ (get_relevant_context e store graph v).aggregates)
    (hc : c ∈ p.2.chunks)
    (hq : q ∈ formattedSources (get_relevant_context e store graph v).selected)
    (hd : d ∈ q.2.chunks.take 2) :
    c.content ≠ "" ∧ d.content ≠ "" := by
  by_cases he : e = []
  · subst he
    simp [get_relevant_context] at hp
  · rcases hrun : runAttempts store (fetchCap v) v.MIN_SIMILARITY_THRESHOLD (thresholdAttempts v)
      with ⟨qs, mt, res⟩
    cases res with
    | error err =>
      cases err
      rw [error_result e store graph v qs mt he hrun] at hp
      simp at hp
    | ok recs =>
      cases recs with
      | nil =>
        rw [grc_ok_nil e store graph v qs mt he hrun] at hp
        simp at hp
      | cons r rs =>
        rw [grc_ok e store graph v qs mt r rs he hrun] at hp hq
        have hOK := chunksOK_buildResult qs mt (r :: rs) graph v
        refine ⟨hOK p hp c hc, ?_⟩
        have hq1 : q ∈ (buildResult qs mt (r :: rs) graph v).selected := by
          simp only [formattedSources] at hq
          exact (List.mem_filter.mp hq).1
        have hq2 := buildResult_selected_mem qs mt (r :: rs) graph v q hq1
        exact hOK q hq2 d ((List.take_sublist 2 q.2.chunks).subset hd)

/-- Witness for C9 on a concrete one-row retrieval. -/
theorem empty_content_exclusion_witness :
    c0.content ≠ "" ∧ c0.content ≠ "" :=
  empty_content_exclusion [1] store0 (Except.ok []) v0 p0 p0 c0 c0
    (by
      norm_num +decide [get_relevant_context, buildResult, runAttempts, thresholdAttempts,
        fetchCap, aggregateRecords, recordStep, mergeRecord, mergeInto, freshAgg, mkChunk,
        filePathOf, finalizeAgg, sortDesc, insertDesc, v0, store0, rec0, p0, c0, List.lookup])
    (by simp [p0])
    (by
      norm_num +decide [get_relevant_context, buildResult, runAttempts, thresholdAttempts,
        fetchCap, aggregateRecords, recordStep, mergeRecord, mergeInto, freshAgg, mkChunk,
        filePathOf, finalizeAgg, sortDesc, insertDesc, formattedSources, v0, store0, rec0,
        p0, c0, List.lookup])
    (by simp [p0])

theorem projects_mono (records : List Record) :
    ∀ (st : List (String × Aggregate) × Finset String) (x : String),
      x ∈ st.2 → x ∈ (records.foldl recordStep st).2 := by
  induction records with
  | nil => intro st x hx; simpa using hx
  | cons r rs ih =>
    intro st x hx
    simp only [List.foldl_cons]
    apply ih
    rw [recordStep_snd]
    split
    · exact Finset.mem_insert_of_mem hx
    · exact hx

theorem project_mem_foldl (records : List Record) (r : Record)
    (hr : r ∈ records) (hu : r.project_name ≠ "unknown") :
    ∀ st : List (String × Aggregate) × Finset String,
      r.project_name ∈ (records.foldl recordStep st).2 := by
  induction records with
  | nil => cases hr
  | cons x xs ih =>
    intro st
    simp only [List.foldl_cons]
    rcases List.mem_cons.mp hr with h | h
    · subst h
      apply projects_mono
      rw [recordStep_snd, if_pos hu]
      exact Finset.mem_insert_self _ _
    · exact ih h (recordStep st x)

/-- C10 (counterexample): a memory record and a file record whose path
lies under a project literally named `memory`
(`/workspace/memory/a.py`, whose derived project name is `memory`, which
is derivable, i.e. not `unknown`) together populate the project-match set
with the single element `memory` — the cross-project trigger
`len(project_matches) > 1` (source line 871) is NOT satisfied, refuting
the claim that a memory record plus a file record with a derivable
project always satisfy it. -/
theorem cross_project_trigger_counterexample :
    (memoryRecord ("note") ("remember this") 0.7 0.7).source_type = "memory"
    ∧ (memoryRecord ("note") ("remember this") 0.7 0.7).project_name = "memory"
    ∧ fileRecMem.source_type = "file"
    ∧ fileRecMem.project_name = projectFromPath ("/workspace/memory/a.py")
    ∧ fileRecMem.project_name ≠ "unknown"
    ∧ ¬ (1 < (aggregateRecords
          [memoryRecord ("note") ("remember this") 0.7 0.7, fileRecMem]).2.card) := by
  refine ⟨rfl, rfl, rfl, rfl, by decide, ?_⟩
  norm_num +decide [aggregateRecords, recordStep, mergeRecord, mergeInto, freshAgg,
    mkChunk, filePathOf, memoryRecord, fileRecMem, projectFromPath, splitOnChar,
    splitOnCharAux, List.lookup]

/-- C10 (amended): the cross-project trigger is satisfied whenever the
aggregated records contain a memory record (which always carries the fixed
project name `memory`) together with a file record whose derived project
name is neither `unknown` nor the literal `memory`; a file under a project
named exactly `memory` does not count as a distinct project. -/
theorem cross_project_trigger_amended (records : List Record) (title c : String)
    (s b : ℚ) (r2 : Record)
    (h1 : memoryRecord title c s b ∈ records) (h2 : r2 ∈ records)
    (h3 : r2.project_name ≠ "unknown") (h4 : r2.project_name ≠ "memory") :
    (memoryRecord title c s b).project_name = "memory"
    ∧ 1 < (aggregateRecords records).2.card := by
  refine ⟨rfl, ?_⟩
  have hm : ("memory" : String) ∈ (aggregateRecords records).2 :=
    project_mem_foldl records (memoryRecord title c s b) h1
      (by show ("memory" : String) ≠ "unknown"; decide) ([], ∅)
  have hr2 : r2.project_name ∈ (aggregateRecords records).2 :=
    project_mem_foldl records r2 h2 h3 ([], ∅)
  exact Finset.one_lt_card.mpr ⟨"memory", hm, r2.project_name, hr2, Ne.symm h4⟩

/-- Witness for the amended C10: a memory record plus a file record from
project `beta`. -/
theorem cross_project_trigger_amended_witness :
    (memoryRecord ("note") ("remember this") 0.7 0.7).project_name = "memory"
    ∧ 1 < (aggregateRecords
          [memoryRecord ("note") ("remember this") 0.7 0.7, recB]).2.card :=
  cross_project_trigger_amended [memoryRecord ("note") ("remember this") 0.7 0.7, recB]
    ("note") ("remember this") 0.7 0.7 recB
    (by simp) (by simp) (by decide) (by decide)
